import Mathlib

/-!
Verification of the project mutation service
(`src/services/project/project-mutation.service.ts`).

The four exported operations (`createNewProject`, `updateProject`,
`updateProjectStatus`, `deleteProject`) are embedded as pure functions over
an explicit environment `Env` that supplies the results of each remote
collaborator call (project-store fetch/insert/update/delete and the
image-store upload/delete helpers).  Each operation returns its outcome
(`Except MutationError …`) together with the ordered list of collaborator
calls it issued (`List Effect`), so that claims about call ordering and
about payload contents can be stated directly.

JavaScript semantics are modelled explicitly: field absence is `Option`,
string truthiness (`if (x)`, `x || d`) treats the empty string as falsy,
object spread / key deletion on the update payload is modelled on an
association list of (key, value) pairs.
-/

/-- JS-level field values appearing in store payloads. -/
inductive Value where
  | str (s : String)
  | null
  | arr (xs : List String)
  | file (f : String)
deriving Repr, DecidableEq

/-- The caller-supplied DTO (`ProjectData` / `Partial<ProjectData>`).
`none` models an absent field.  `image` is the raw file payload, an opaque
handle (a JS `File` object is always truthy, so truthiness = presence). -/
structure ProjectData where
  title : Option String := none
  description : Option String := none
  status : Option String := none
  timeline_status : Option String := none
  start_date : Option String := none
  end_date : Option String := none
  members : Option (List String) := none
  image : Option String := none
  image_url : Option String := none
deriving Repr, DecidableEq

/-- A persisted project row as fetched from the store.  `members` and
`image_url` may be null (`none`). -/
structure ProjectRecord where
  id : String := ""
  title : String := ""
  description : String := ""
  status : String := ""
  timeline_status : String := ""
  start_date : Option String := none
  end_date : Option String := none
  created_by : String := ""
  members : Option (List String) := none
  image_url : Option String := none
deriving Repr, DecidableEq

/-- The record handed to the store insert by `createNewProject`
(the object literal built at lines 18-28 of the source). -/
structure NewProject where
  title : Option String
  description : Option String
  status : String
  timeline_status : String
  start_date : Option String
  end_date : Option String
  created_by : String
  members : List String
  image_url : Option String
deriving Repr, DecidableEq

/-- Results the remote collaborators return for the (at most one) call of
each kind a single operation can make.  Errors are opaque strings. -/
structure Env where
  /-- Result of the strict select-by-id fetch used by updateProject. -/
  fetchSingle : Except String ProjectRecord
  /-- Result of the tolerant select-by-id fetch used by deleteProject. -/
  fetchMaybe : Except String (Option ProjectRecord)
  /-- Result of uploadProjectImage: the new url on success. -/
  uploadResult : Except String String
  /-- Result of deleteProjectImage. -/
  imageDeleteResult : Except String Unit
  /-- Result of the store insert: the inserted row. -/
  insertResult : Except String ProjectRecord
  /-- Result of the update-by-id store call in updateProject. -/
  updateResult : Except String ProjectRecord
  /-- Result of the update-by-match store call in updateProjectStatus. -/
  statusUpdateResult : Except String ProjectRecord
  /-- Result of the delete-by-id store call in deleteProject. -/
  rowDeleteResult : Except String Unit

/-- Error taxonomy: validation (`throw new Error` on missing ids),
authorization (permission denied in `updateProject`), store (any error
propagated from the remote store or the image helpers). -/
inductive MutationError where
  | validation (msg : String)
  | authorization (msg : String)
  | store (e : String)
deriving Repr, DecidableEq

/-- One collaborator call, in the order the operation issues them. -/
inductive Effect where
  | fetchProject (projectId : String)
  | fetchProjectMaybe (projectId : String)
  | imageUpload (userId : String) (file : String)
  | imageDelete (url : String)
  | storeInsert (record : NewProject)
  | storeUpdate (projectId : String) (payload : List (String × Value))
  | storeUpdateMatch (matchOn : List (String × Value)) (payload : List (String × Value))
  | storeDeleteRow (projectId : String)
deriving Repr, DecidableEq

/-- JS `x || d` for an optional string: the empty string is falsy. -/
def jsOrStr (x : Option String) (d : String) : String :=
  match x with
  | some s => if s = "" then d else s
  | none => d

/-- JS `x || null` for an optional string: `""` collapses to null. -/
def jsOrNullStr (x : Option String) : Option String :=
  match x with
  | some s => if s = "" then none else some s
  | none => none

/-- JS truthiness of a nullable string field. -/
def jsTruthy (x : Option String) : Bool :=
  match x with
  | some s => s ≠ ""
  | none => false

/-- JS `xs?.includes(u)` under `!…`: a null `members` yields `undefined`,
which is falsy, so the whole test is `false`. -/
def jsIncludes (xs : Option (List String)) (u : String) : Bool :=
  match xs with
  | some l => l.contains u
  | none => false

/-- Render a nullable string as a JS object-literal value. -/
def optStrVal (x : Option String) : Value :=
  match x with
  | some s => Value.str s
  | none => Value.null

/-- First value bound to key `k`, if any (JS property read; keys built by
`ProjectData.toFields` are unique, as in a JS object). -/
def lookupField (l : List (String × Value)) (k : String) : Option Value :=
  match l with
  | [] => none
  | p :: rest => if p.1 = k then some p.2 else lookupField rest k

/-- JS `delete obj[k]`: the binding for `k` is removed. -/
def deleteField (l : List (String × Value)) (k : String) : List (String × Value) :=
  match l with
  | [] => []
  | p :: rest => if p.1 = k then deleteField rest k else p :: deleteField rest k

/-- JS `{...obj, k: v}`: overwrite in place if the key exists, else append. -/
def setField (l : List (String × Value)) (k : String) (v : Value) :
    List (String × Value) :=
  match l with
  | [] => [(k, v)]
  | p :: rest => if p.1 = k then (k, v) :: rest else p :: setField rest k v

/-- The fields of a `Partial<ProjectData>` spread into a JS object
(absent fields contribute no key). -/
def ProjectData.toFields (pd : ProjectData) : List (String × Value) :=
  (match pd.title with | some v => [("title", Value.str v)] | none => []) ++
  (match pd.description with | some v => [("description", Value.str v)] | none => []) ++
  (match pd.status with | some v => [("status", Value.str v)] | none => []) ++
  (match pd.timeline_status with | some v => [("timeline_status", Value.str v)] | none => []) ++
  (match pd.start_date with | some v => [("start_date", Value.str v)] | none => []) ++
  (match pd.end_date with | some v => [("end_date", Value.str v)] | none => []) ++
  (match pd.members with | some v => [("members", Value.arr v)] | none => []) ++
  (match pd.image with | some v => [("image", Value.file v)] | none => []) ++
  (match pd.image_url with | some v => [("image_url", Value.str v)] | none => [])

/-- Lines 18-28: the new-project object literal with its defaults. -/
def newProjectRecord (userId : String) (pd : ProjectData) (imageUrl : Option String) :
    NewProject :=
  { title := pd.title
    description := pd.description
    status := jsOrStr pd.status "planning"
    timeline_status := jsOrStr pd.timeline_status "ongoing"
    start_date := jsOrNullStr pd.start_date
    end_date := jsOrNullStr pd.end_date
    created_by := userId
    members := pd.members.getD []
    image_url := imageUrl }

/-- Lines 73-79: `{...projectData, image_url: imageUrl}` followed by
`delete updateData.image`. -/
def updatePayload (pd : ProjectData) (imageUrl : Option String) :
    List (String × Value) :=
  deleteField (setField pd.toFields "image_url" (optStrVal imageUrl)) "image"

/-- Embedding of createNewProject (source lines 9-39). -/
def createNewProject (env : Env) (userId : String) (pd : ProjectData) :
    Except MutationError ProjectRecord × List Effect :=
  if userId = "" then
    (Except.error (MutationError.validation "User ID is required to create a project"), [])
  else
    match pd.image with
    | none =>
      let r := newProjectRecord userId pd none
      match env.insertResult with
      | Except.error e => (Except.error (MutationError.store e), [Effect.storeInsert r])
      | Except.ok row => (Except.ok row, [Effect.storeInsert r])
    | some f =>
      match env.uploadResult with
      | Except.error e =>
        (Except.error (MutationError.store e), [Effect.imageUpload userId f])
      | Except.ok url =>
        let r := newProjectRecord userId pd (some url)
        match env.insertResult with
        | Except.error e =>
          (Except.error (MutationError.store e),
            [Effect.imageUpload userId f, Effect.storeInsert r])
        | Except.ok row =>
          (Except.ok row, [Effect.imageUpload userId f, Effect.storeInsert r])

/-- Lines 62-71: resolve the image url, deleting the old asset and
uploading the new one when `projectData.image` is supplied.  Returns the
resolved url together with the image-helper calls issued. -/
def resolveImage (env : Env) (userId : String) (pd : ProjectData)
    (existingUrl : Option String) :
    Except MutationError (Option String) × List Effect :=
  match pd.image with
  | none => (Except.ok existingUrl, [])
  | some f =>
    if jsTruthy existingUrl then
      match env.imageDeleteResult with
      | Except.error e =>
        (Except.error (MutationError.store e), [Effect.imageDelete (existingUrl.getD "")])
      | Except.ok _ =>
        match env.uploadResult with
        | Except.error e =>
          (Except.error (MutationError.store e),
            [Effect.imageDelete (existingUrl.getD ""), Effect.imageUpload userId f])
        | Except.ok url =>
          (Except.ok (some url),
            [Effect.imageDelete (existingUrl.getD ""), Effect.imageUpload userId f])
    else
      match env.uploadResult with
      | Except.error e =>
        (Except.error (MutationError.store e), [Effect.imageUpload userId f])
      | Except.ok url => (Except.ok (some url), [Effect.imageUpload userId f])

/-- Embedding of updateProject (source lines 44-91). -/
def updateProject (env : Env) (projectId userId : String) (pd : ProjectData) :
    Except MutationError ProjectRecord × List Effect :=
  if projectId = "" then
    (Except.error (MutationError.validation "Project ID is required to update a project"), [])
  else if userId = "" then
    (Except.error (MutationError.validation "User ID is required to update a project"), [])
  else
    match env.fetchSingle with
    | Except.error e => (Except.error (MutationError.store e), [Effect.fetchProject projectId])
    | Except.ok existing =>
      if existing.created_by != userId && !(jsIncludes existing.members userId) then
        (Except.error
            (MutationError.authorization "You don't have permission to update this project"),
          [Effect.fetchProject projectId])
      else
        match resolveImage env userId pd existing.image_url with
        | (Except.error e, imgFx) =>
          (Except.error e, Effect.fetchProject projectId :: imgFx)
        | (Except.ok imageUrl, imgFx) =>
          let payload := updatePayload pd imageUrl
          match env.updateResult with
          | Except.error e =>
            (Except.error (MutationError.store e),
              Effect.fetchProject projectId :: imgFx ++ [Effect.storeUpdate projectId payload])
          | Except.ok row =>
            (Except.ok row,
              Effect.fetchProject projectId :: imgFx ++ [Effect.storeUpdate projectId payload])

/-- Embedding of updateProjectStatus (source lines 96-107). -/
def updateProjectStatus (env : Env) (projectId status : String) :
    Except MutationError ProjectRecord × List Effect :=
  let fx := [Effect.storeUpdateMatch [("id", Value.str projectId)] [("status", Value.str status)]]
  match env.statusUpdateResult with
  | Except.error e => (Except.error (MutationError.store e), fx)
  | Except.ok row => (Except.ok row, fx)

/-- Embedding of deleteProject (source lines 112-142). -/
def deleteProject (env : Env) (projectId : String) :
    Except MutationError Bool × List Effect :=
  match env.fetchMaybe with
  | Except.error e =>
    (Except.error (MutationError.store e), [Effect.fetchProjectMaybe projectId])
  | Except.ok projOpt =>
    let imgFx :=
      match projOpt with
      | some project => if jsTruthy project.image_url
          then [Effect.imageDelete (project.image_url.getD "")] else []
      | none => []
    let needsImageDelete :=
      match projOpt with
      | some project => jsTruthy project.image_url
      | none => false
    if needsImageDelete then
      match env.imageDeleteResult with
      | Except.error e =>
        (Except.error (MutationError.store e), Effect.fetchProjectMaybe projectId :: imgFx)
      | Except.ok _ =>
        match env.rowDeleteResult with
        | Except.error e =>
          (Except.error (MutationError.store e),
            Effect.fetchProjectMaybe projectId :: imgFx ++ [Effect.storeDeleteRow projectId])
        | Except.ok _ =>
          (Except.ok true,
            Effect.fetchProjectMaybe projectId :: imgFx ++ [Effect.storeDeleteRow projectId])
    else
      match env.rowDeleteResult with
      | Except.error e =>
        (Except.error (MutationError.store e),
          [Effect.fetchProjectMaybe projectId, Effect.storeDeleteRow projectId])
      | Except.ok _ =>
        (Except.ok true, [Effect.fetchProjectMaybe projectId, Effect.storeDeleteRow projectId])

/-! ### Helper lemmas about payload field operations -/

theorem lookupField_deleteField (l : List (String × Value)) (k : String) :
    lookupField (deleteField l k) k = none := by
  induction l with
  | nil => rfl
  | cons p rest ih =>
    by_cases h : p.1 = k
    · simpa [deleteField, h] using ih
    · simpa [deleteField, lookupField, h] using ih

theorem lookupField_deleteField_ne (l : List (String × Value)) (k k2 : String)
    (hne : k ≠ k2) :
    lookupField (deleteField l k2) k = lookupField l k := by
  induction l with
  | nil => rfl
  | cons p rest ih =>
    by_cases h : p.1 = k2
    · simpa [deleteField, lookupField, h, Ne.symm hne] using ih
    · by_cases h2 : p.1 = k
      · simp [deleteField, lookupField, h, h2, hne]
      · simpa [deleteField, lookupField, h, h2] using ih

theorem lookupField_setField (l : List (String × Value)) (k : String) (v : Value) :
    lookupField (setField l k v) k = some v := by
  induction l with
  | nil => simp [setField, lookupField]
  | cons p rest ih =>
    by_cases h : p.1 = k
    · simp [setField, lookupField, h]
    · simpa [setField, lookupField, h] using ih

theorem lookupField_updatePayload_image (pd : ProjectData) (u : Option String) :
    lookupField (updatePayload pd u) "image" = none :=
  lookupField_deleteField _ _

theorem lookupField_updatePayload_image_url (pd : ProjectData) (u : Option String) :
    lookupField (updatePayload pd u) "image_url" = some (optStrVal u) := by
  rw [updatePayload, lookupField_deleteField_ne _ _ _ (by decide)]
  exact lookupField_setField _ _ _

/-! ### Sample concrete values used by witness theorems -/

/-- A stored project owned by `"u1"` with one member `"m1"`. -/
def sampleRecord : ProjectRecord :=
  { id := "p1", created_by := "u1", members := some ["m1"], image_url := some "old-url" }

/-- A stored project owned by `"u1"` whose `members` column is null. -/
def nullMembersRecord : ProjectRecord :=
  { id := "p1", created_by := "u1", members := none }

/-- An environment in which every collaborator call succeeds. -/
def happyEnv : Env :=
  { fetchSingle := Except.ok sampleRecord
    fetchMaybe := Except.ok (some sampleRecord)
    uploadResult := Except.ok "new-url"
    imageDeleteResult := Except.ok ()
    insertResult := Except.ok {}
    updateResult := Except.ok {}
    statusUpdateResult := Except.ok {}
    rowDeleteResult := Except.ok () }

/-! ### Claim theorems -/

/-- C1: whenever `updateProject` fetches an existing record whose
`created_by` differs from `userId` and whose `members` do not contain
`userId`, it fails with the `AuthorizationError` and its trace is exactly
the initial fetch — in particular no store update call is issued. -/
theorem updateProject_unauthorized (env : Env) (pid uid : String) (pd : ProjectData)
    (existing : ProjectRecord)
    (hp : pid ≠ "") (hu : uid ≠ "")
    (hf : env.fetchSingle = Except.ok existing)
    (hc : existing.created_by ≠ uid)
    (hm : jsIncludes existing.members uid = false) :
    (updateProject env pid uid pd).1 =
      Except.error (MutationError.authorization
        "You don't have permission to update this project") ∧
    (updateProject env pid uid pd).2 = [Effect.fetchProject pid] := by
  have hcond : (existing.created_by != uid && !(jsIncludes existing.members uid)) = true := by
    simp [bne_iff_ne, hc, hm]
  constructor <;>
    simp [updateProject, hp, hu, hf, hcond]

theorem updateProject_unauthorized_witness :
    (updateProject happyEnv "p1" "u2" {}).1 =
      Except.error (MutationError.authorization
        "You don't have permission to update this project") ∧
    (updateProject happyEnv "p1" "u2" {}).2 = [Effect.fetchProject "p1"] :=
  updateProject_unauthorized happyEnv "p1" "u2" {} sampleRecord
    (by decide) (by decide) rfl (by decide) (by decide)

/-- C3: `createNewProject` with an empty `userId` fails with the
`ValidationError` and issues no collaborator call at all (no store call,
no image-upload call). -/
theorem createNewProject_empty_userId (env : Env) (pd : ProjectData) :
    createNewProject env "" pd =
      (Except.error (MutationError.validation "User ID is required to create a project"),
        []) := by
  simp [createNewProject]

/-- C7: `updateProjectStatus` issues exactly one collaborator call, a store
update matched on `id = projectId` whose payload holds exactly the
`status` field — so no authorization check and no existence fetch is ever
performed. -/
theorem updateProjectStatus_trace (env : Env) (pid st : String) :
    (updateProjectStatus env pid st).2 =
      [Effect.storeUpdateMatch [("id", Value.str pid)] [("status", Value.str st)]] := by
  rcases env with ⟨f1, f2, f3, f4, f5, f6, f7, f8⟩
  cases f7 <;> rfl

/-- C10: when the `members` field of the fetched record is null, the authorization
check is still total: a `userId` different from `created_by` fails with the
`AuthorizationError` (the optional-chained membership test yields a falsy
`undefined` rather than crashing), and no store update is issued. -/
theorem updateProject_null_members (env : Env) (pid uid : String) (pd : ProjectData)
    (existing : ProjectRecord)
    (hp : pid ≠ "") (hu : uid ≠ "")
    (hf : env.fetchSingle = Except.ok existing)
    (hmem : existing.members = none)
    (hc : existing.created_by ≠ uid) :
    (updateProject env pid uid pd).1 =
      Except.error (MutationError.authorization
        "You don't have permission to update this project") ∧
    (updateProject env pid uid pd).2 = [Effect.fetchProject pid] := by
  have hm : jsIncludes existing.members uid = false := by
    rw [hmem]; rfl
  have hcond : (existing.created_by != uid && !(jsIncludes existing.members uid)) = true := by
    simp [bne_iff_ne, hc, hm]
  constructor <;>
    simp [updateProject, hp, hu, hf, hcond]

def envNullMembers : Env :=
  { happyEnv with fetchSingle := Except.ok nullMembersRecord }

theorem updateProject_null_members_witness :
    (updateProject envNullMembers "p1" "u2" {}).1 =
      Except.error (MutationError.authorization
        "You don't have permission to update this project") ∧
    (updateProject envNullMembers "p1" "u2" {}).2 = [Effect.fetchProject "p1"] :=
  updateProject_null_members envNullMembers "p1" "u2" {} nullMembersRecord
    (by decide) (by decide) rfl rfl (by decide)

/-- C2: a successful `createNewProject` whose `projectData` leaves
`status`, `timeline_status`, `start_date`, `end_date` and `members`
unspecified sends exactly one insert record to the store, and that record
has status `"planning"`, timeline_status `"ongoing"`, absent start/end
dates, empty members, and `created_by` equal to the `userId` argument. -/
theorem createNewProject_defaults (env : Env) (uid : String) (pd : ProjectData)
    (hu : uid ≠ "")
    (hs : pd.status = none) (hts : pd.timeline_status = none)
    (hsd : pd.start_date = none) (hed : pd.end_date = none)
    (hm : pd.members = none)
    (hsucc : ∃ row, (createNewProject env uid pd).1 = Except.ok row) :
    ∃ r, Effect.storeInsert r ∈ (createNewProject env uid pd).2 ∧
      r.status = "planning" ∧ r.timeline_status = "ongoing" ∧
      r.start_date = none ∧ r.end_date = none ∧
      r.members = [] ∧ r.created_by = uid ∧
      ∀ r2, Effect.storeInsert r2 ∈ (createNewProject env uid pd).2 → r2 = r := by
  obtain ⟨row, hrow⟩ := hsucc
  unfold createNewProject at hrow ⊢
  rw [if_neg hu] at hrow ⊢
  cases hi : pd.image with
  | none =>
    cases hins : env.insertResult with
    | error e => simp [hi, hins] at hrow
    | ok rr =>
      refine ⟨newProjectRecord uid pd none, by simp, ?_, ?_, ?_, ?_, ?_, ?_, ?_⟩ <;>
        simp [newProjectRecord, jsOrStr, jsOrNullStr, hs, hts, hsd, hed, hm]
  | some f =>
    cases hup : env.uploadResult with
    | error e => simp [hi, hup] at hrow
    | ok url =>
      cases hins : env.insertResult with
      | error e => simp [hi, hup, hins] at hrow
      | ok rr =>
        refine ⟨newProjectRecord uid pd (some url), by simp, ?_, ?_, ?_, ?_, ?_, ?_, ?_⟩ <;>
          simp [newProjectRecord, jsOrStr, jsOrNullStr, hs, hts, hsd, hed, hm]

theorem createNewProject_defaults_witness :
    ∃ r, Effect.storeInsert r ∈ (createNewProject happyEnv "u1" { title := some "A" }).2 ∧
      r.status = "planning" ∧ r.timeline_status = "ongoing" ∧
      r.start_date = none ∧ r.end_date = none ∧
      r.members = [] ∧ r.created_by = "u1" ∧
      ∀ r2, Effect.storeInsert r2 ∈ (createNewProject happyEnv "u1" { title := some "A" }).2 →
        r2 = r :=
  createNewProject_defaults happyEnv "u1" { title := some "A" }
    (by decide) rfl rfl rfl rfl rfl ⟨{}, rfl⟩

/-- C8: when `createNewProject` uploads an image successfully and the
subsequent store insert fails, the operation fails with the propagated
`StoreError`, the trace is exactly the upload followed by the attempted
insert, and no image-delete call is ever made on this failure path (the
uploaded asset is not rolled back). -/
theorem createNewProject_no_rollback (env : Env) (uid : String) (pd : ProjectData)
    (f url e : String)
    (hu : uid ≠ "") (hi : pd.image = some f)
    (hup : env.uploadResult = Except.ok url)
    (hins : env.insertResult = Except.error e) :
    (createNewProject env uid pd).1 = Except.error (MutationError.store e) ∧
    (createNewProject env uid pd).2 =
      [Effect.imageUpload uid f, Effect.storeInsert (newProjectRecord uid pd (some url))] ∧
    ∀ u2, Effect.imageDelete u2 ∉ (createNewProject env uid pd).2 := by
  refine ⟨?_, ?_, ?_⟩ <;> simp [createNewProject, hu, hi, hup, hins]

def envInsertFails : Env :=
  { happyEnv with insertResult := Except.error "insert-failed" }

def pdWithImage : ProjectData :=
  { title := some "A", image := some "file-1" }

theorem createNewProject_no_rollback_witness :
    (createNewProject envInsertFails "u1" pdWithImage).1 =
      Except.error (MutationError.store "insert-failed") ∧
    (createNewProject envInsertFails "u1" pdWithImage).2 =
      [Effect.imageUpload "u1" "file-1",
        Effect.storeInsert (newProjectRecord "u1" pdWithImage (some "new-url"))] ∧
    ∀ u2, Effect.imageDelete u2 ∉ (createNewProject envInsertFails "u1" pdWithImage).2 :=
  createNewProject_no_rollback envInsertFails "u1" pdWithImage "file-1" "new-url" "insert-failed"
    (by decide) rfl rfl rfl

/-- C4: every successful `deleteProject` returns `true` (also when the
fetch found no record); when the fetched record has a non-empty string
`image_url` and the call succeeds, the trace is exactly
fetch, image-delete, record-delete — the image-delete precedes the record
delete; when the fetched record has no `image_url`, no image-delete call is
ever made. -/
theorem deleteProject_spec (env : Env) (pid : String) :
    ((∃ b, (deleteProject env pid).1 = Except.ok b) →
        (deleteProject env pid).1 = Except.ok true) ∧
    (∀ p url, env.fetchMaybe = Except.ok (some p) → p.image_url = some url → url ≠ "" →
        (∃ b, (deleteProject env pid).1 = Except.ok b) →
        (deleteProject env pid).2 =
          [Effect.fetchProjectMaybe pid, Effect.imageDelete url,
            Effect.storeDeleteRow pid]) ∧
    (∀ p, env.fetchMaybe = Except.ok (some p) → p.image_url = none →
        ∀ url, Effect.imageDelete url ∉ (deleteProject env pid).2) ∧
    (env.fetchMaybe = Except.ok none → env.rowDeleteResult = Except.ok () →
        (deleteProject env pid).1 = Except.ok true) := by
  refine ⟨?_, ?_, ?_, ?_⟩
  · rintro ⟨b, hb⟩
    cases hf : env.fetchMaybe with
    | error e => simp [deleteProject, hf] at hb
    | ok po =>
      cases po with
      | none =>
        cases hr : env.rowDeleteResult with
        | error e => simp [deleteProject, hf, hr] at hb
        | ok u => simp [deleteProject, hf, hr]
      | some p =>
        cases ht : jsTruthy p.image_url with
        | false =>
          cases hr : env.rowDeleteResult with
          | error e => simp [deleteProject, hf, ht, hr] at hb
          | ok u => simp [deleteProject, hf, ht, hr]
        | true =>
          cases hd : env.imageDeleteResult with
          | error e => simp [deleteProject, hf, ht, hd] at hb
          | ok u =>
            cases hr : env.rowDeleteResult with
            | error e => simp [deleteProject, hf, ht, hd, hr] at hb
            | ok u2 => simp [deleteProject, hf, ht, hd, hr]
  · rintro p url hf hpu hne ⟨b, hb⟩
    have ht : jsTruthy p.image_url = true := by simp [jsTruthy, hpu, hne]
    cases hd : env.imageDeleteResult with
    | error e => simp [deleteProject, hf, ht, hd] at hb
    | ok u =>
      cases hr : env.rowDeleteResult with
      | error e => simp [deleteProject, hf, ht, hd, hr] at hb
      | ok u2 => simp [deleteProject, hf, ht, hd, hr, hpu, jsTruthy, hne]
  · rintro p hf hpu url
    have ht : jsTruthy p.image_url = false := by simp [jsTruthy, hpu]
    cases hr : env.rowDeleteResult <;> simp [deleteProject, hf, ht, hr]
  · rintro hf hr
    simp [deleteProject, hf, hr]

/-- A stored project without an image. -/
def noImageRecord : ProjectRecord := { id := "p1", created_by := "u1" }

def envDeleteNoImage : Env :=
  { happyEnv with fetchMaybe := Except.ok (some noImageRecord) }

def envDeleteNone : Env :=
  { happyEnv with fetchMaybe := Except.ok none }

theorem deleteProject_spec_witness :
    (deleteProject happyEnv "p1").2 =
      [Effect.fetchProjectMaybe "p1", Effect.imageDelete "old-url",
        Effect.storeDeleteRow "p1"] ∧
    (∀ url, Effect.imageDelete url ∉ (deleteProject envDeleteNoImage "p1").2) ∧
    (deleteProject envDeleteNone "p1").1 = Except.ok true :=
  ⟨(deleteProject_spec happyEnv "p1").2.1 sampleRecord "old-url" rfl rfl (by decide)
      ⟨true, rfl⟩,
    (deleteProject_spec envDeleteNoImage "p1").2.2.1 noImageRecord rfl rfl,
    (deleteProject_spec envDeleteNone "p1").2.2.2 rfl rfl⟩

/-- A stored project whose `image_url` is the empty string: non-null, yet
falsy for the truthiness check guarding the image delete in the source. -/
def emptyUrlRecord : ProjectRecord :=
  { id := "p1", created_by := "u1", image_url := some "" }

def envEmptyUrl : Env :=
  { happyEnv with fetchSingle := Except.ok emptyUrlRecord }

/-- C5 counterexample: `updateProject` called with a new image while the
`image_url` of the existing record is the non-null string `""` never invokes the
image-delete collaborator — the source guards the delete with JS
truthiness (`if (imageUrl)`), not with a null test, so the claim as stated
(delete invoked whenever `image_url` is non-null) is false. -/
theorem updateProject_image_delete_counterexample :
    emptyUrlRecord.image_url = some "" ∧
    pdWithImage.image = some "file-1" ∧
    (updateProject envEmptyUrl "p1" "u1" pdWithImage).2 =
      [Effect.fetchProject "p1", Effect.imageUpload "u1" "file-1",
        Effect.storeUpdate "p1" (updatePayload pdWithImage (some "new-url"))] ∧
    ∀ url, Effect.imageDelete url ∉ (updateProject envEmptyUrl "p1" "u1" pdWithImage).2 := by
  refine ⟨rfl, rfl, rfl, ?_⟩
  intro url
  have ht : (updateProject envEmptyUrl "p1" "u1" pdWithImage).2 =
      [Effect.fetchProject "p1", Effect.imageUpload "u1" "file-1",
        Effect.storeUpdate "p1" (updatePayload pdWithImage (some "new-url"))] := rfl
  simp [ht]

/-- C5 (amended): when `updateProject` is supplied a new image and the
`image_url` of the existing record is a non-empty (truthy) string, the
delete of the old asset is invoked before the new upload — the trace starts with
fetch, image-delete(old), image-upload(new) — and a failing delete aborts
the operation before any upload: the error propagates as a `StoreError`
and the trace stops at the image-delete. -/
theorem updateProject_image_replacement (env : Env) (pid uid : String) (pd : ProjectData)
    (existing : ProjectRecord) (u f : String)
    (hp : pid ≠ "") (hu : uid ≠ "")
    (hf : env.fetchSingle = Except.ok existing)
    (hauth : (existing.created_by != uid && !(jsIncludes existing.members uid)) = false)
    (himg : pd.image = some f)
    (hurl : existing.image_url = some u) (hne : u ≠ "") :
    (∀ e, env.imageDeleteResult = Except.error e →
        (updateProject env pid uid pd).1 = Except.error (MutationError.store e) ∧
        (updateProject env pid uid pd).2 =
          [Effect.fetchProject pid, Effect.imageDelete u]) ∧
    (∀ x, env.imageDeleteResult = Except.ok x →
        ∃ tail, (updateProject env pid uid pd).2 =
          Effect.fetchProject pid :: Effect.imageDelete u ::
            Effect.imageUpload uid f :: tail) := by
  have ht : jsTruthy (some u) = true := by simp [jsTruthy, hne]
  constructor
  · intro e hd
    constructor <;>
      simp [updateProject, resolveImage, hp, hu, hf, hauth, himg, ht, hurl, hd]
  · intro x hd
    cases hup : env.uploadResult with
    | error e =>
      exact ⟨[],
        by simp [updateProject, resolveImage, hp, hu, hf, hauth, himg, ht, hurl, hd, hup]⟩
    | ok url =>
      cases hupd : env.updateResult with
      | error e2 =>
        exact ⟨[Effect.storeUpdate pid (updatePayload pd (some url))],
          by simp [updateProject, resolveImage, hp, hu, hf, hauth, himg, ht, hurl, hd, hup,
            hupd]⟩
      | ok row =>
        exact ⟨[Effect.storeUpdate pid (updatePayload pd (some url))],
          by simp [updateProject, resolveImage, hp, hu, hf, hauth, himg, ht, hurl, hd, hup,
            hupd]⟩

def envImgDelFails : Env :=
  { happyEnv with imageDeleteResult := Except.error "del-failed" }

theorem updateProject_image_replacement_witness :
    (∃ tail, (updateProject happyEnv "p1" "u1" pdWithImage).2 =
        Effect.fetchProject "p1" :: Effect.imageDelete "old-url" ::
          Effect.imageUpload "u1" "file-1" :: tail) ∧
    ((updateProject envImgDelFails "p1" "u1" pdWithImage).1 =
        Except.error (MutationError.store "del-failed") ∧
      (updateProject envImgDelFails "p1" "u1" pdWithImage).2 =
        [Effect.fetchProject "p1", Effect.imageDelete "old-url"]) :=
  ⟨(updateProject_image_replacement happyEnv "p1" "u1" pdWithImage sampleRecord
      "old-url" "file-1" (by decide) (by decide) rfl (by decide) rfl rfl (by decide)).2
      () rfl,
    (updateProject_image_replacement envImgDelFails "p1" "u1" pdWithImage sampleRecord
      "old-url" "file-1" (by decide) (by decide) rfl (by decide) rfl rfl (by decide)).1
      "del-failed" rfl⟩

/-- The image-resolution step of `updateProject` issues only image-helper
calls: no store update appears in its trace. -/
theorem storeUpdate_not_mem_resolveImage (env : Env) (uid : String) (pd : ProjectData)
    (eu : Option String) (pid : String) (payload : List (String × Value)) :
    Effect.storeUpdate pid payload ∉ (resolveImage env uid pd eu).2 := by
  cases hi : pd.image with
  | none => simp [resolveImage, hi]
  | some f =>
    cases ht : jsTruthy eu with
    | false => cases hup : env.uploadResult <;> simp [resolveImage, hi, ht, hup]
    | true =>
      cases hd : env.imageDeleteResult with
      | error e => simp [resolveImage, hi, ht, hd]
      | ok x => cases hup : env.uploadResult <;> simp [resolveImage, hi, ht, hd, hup]

/-- Any store update call issued by `updateProject` is keyed by the given
`projectId` and carries exactly the payload built by `updatePayload` from
`projectData` and the resolved image url. -/
theorem updateProject_storeUpdate_mem (env : Env) (pid uid : String) (pd : ProjectData)
    (pid2 : String) (payload : List (String × Value))
    (h : Effect.storeUpdate pid2 payload ∈ (updateProject env pid uid pd).2) :
    ∃ existing imageUrl, env.fetchSingle = Except.ok existing ∧
      (resolveImage env uid pd existing.image_url).1 = Except.ok imageUrl ∧
      pid2 = pid ∧ payload = updatePayload pd imageUrl := by
  by_cases hp : pid = ""
  · simp [updateProject, hp] at h
  by_cases hu : uid = ""
  · simp [updateProject, hp, hu] at h
  cases hf : env.fetchSingle with
  | error e => simp [updateProject, hp, hu, hf] at h
  | ok existing =>
    by_cases hauth : (existing.created_by != uid && !(jsIncludes existing.members uid)) = true
    · simp [updateProject, hp, hu, hf, hauth] at h
    · rw [Bool.not_eq_true] at hauth
      have hnot := storeUpdate_not_mem_resolveImage env uid pd existing.image_url pid2 payload
      cases hri : resolveImage env uid pd existing.image_url with
      | mk res fx =>
        rw [hri] at hnot
        cases res with
        | error e =>
          simp [updateProject, hp, hu, hf, hauth, hri] at h
          exact absurd h hnot
        | ok imageUrl =>
          refine ⟨existing, imageUrl, rfl, by rw [hri], ?_⟩
          cases hupd : env.updateResult with
          | error e =>
            simp [updateProject, hp, hu, hf, hauth, hri, hupd] at h
            rcases h with h | h
            · exact absurd h hnot
            · exact ⟨h.1, h.2⟩
          | ok row =>
            simp [updateProject, hp, hu, hf, hauth, hri, hupd] at h
            rcases h with h | h
            · exact absurd h hnot
            · exact ⟨h.1, h.2⟩

/-- C6: every payload handed to the store update by `updateProject` has no
`image` key: the raw file object is always removed before the store call,
whether or not `projectData` carried an image. -/
theorem updateProject_payload_no_image (env : Env) (pid uid : String) (pd : ProjectData)
    (pid2 : String) (payload : List (String × Value))
    (h : Effect.storeUpdate pid2 payload ∈ (updateProject env pid uid pd).2) :
    lookupField payload "image" = none := by
  obtain ⟨existing, imageUrl, -, -, -, hpay⟩ :=
    updateProject_storeUpdate_mem env pid uid pd pid2 payload h
  rw [hpay]
  exact lookupField_updatePayload_image pd imageUrl

theorem updateProject_payload_no_image_witness :
    lookupField (updatePayload pdWithImage (some "new-url")) "image" = none :=
  updateProject_payload_no_image happyEnv "p1" "u1" pdWithImage "p1"
    (updatePayload pdWithImage (some "new-url"))
    (by
      have ht : (updateProject happyEnv "p1" "u1" pdWithImage).2 =
          [Effect.fetchProject "p1", Effect.imageDelete "old-url",
            Effect.imageUpload "u1" "file-1",
            Effect.storeUpdate "p1" (updatePayload pdWithImage (some "new-url"))] := rfl
      rw [ht]
      simp)

/-- C9: every payload `updateProject` hands to the store update contains an
`image_url` key holding the module-resolved value — the `image_url` of the
fetched record when no new image was supplied, the freshly uploaded url when
one was.  Since `projectData` is universally quantified here (including
any caller-supplied `image_url` inside it), a caller can never set or
clear the stored `image_url` directly through `updateProject`. -/
theorem updateProject_payload_image_url (env : Env) (pid uid : String) (pd : ProjectData)
    (existing : ProjectRecord)
    (hf : env.fetchSingle = Except.ok existing)
    (pid2 : String) (payload : List (String × Value))
    (h : Effect.storeUpdate pid2 payload ∈ (updateProject env pid uid pd).2) :
    (pd.image = none →
      lookupField payload "image_url" = some (optStrVal existing.image_url)) ∧
    (∀ f url, pd.image = some f → env.uploadResult = Except.ok url →
      lookupField payload "image_url" = some (Value.str url)) := by
  obtain ⟨ex2, imageUrl, hf2, hri, -, hpay⟩ :=
    updateProject_storeUpdate_mem env pid uid pd pid2 payload h
  rw [hf] at hf2
  injection hf2 with hex
  subst hex
  constructor
  · intro hnone
    have hiu : imageUrl = existing.image_url := by
      simp [resolveImage, hnone] at hri
      exact hri.symm
    rw [hpay, hiu]
    exact lookupField_updatePayload_image_url pd existing.image_url
  · intro f url hsome hup
    have hiu : imageUrl = some url := by
      cases ht : jsTruthy existing.image_url with
      | true =>
        cases hd : env.imageDeleteResult with
        | error e => simp [resolveImage, hsome, ht, hd] at hri
        | ok x =>
          simp [resolveImage, hsome, ht, hd, hup] at hri
          exact hri.symm
      | false =>
        simp [resolveImage, hsome, ht, hup] at hri
        exact hri.symm
    rw [hpay, hiu]
    simpa [optStrVal] using lookupField_updatePayload_image_url pd (some url)

/-- A caller-supplied `projectData` that tries to set `image_url` directly
and carries no image file. -/
def pdSneaky : ProjectData := { title := some "A", image_url := some "caller-url" }

theorem updateProject_payload_image_url_witness :
    lookupField (updatePayload pdSneaky (some "old-url")) "image_url" =
      some (optStrVal sampleRecord.image_url) :=
  (updateProject_payload_image_url happyEnv "p1" "u1" pdSneaky sampleRecord rfl "p1"
    (updatePayload pdSneaky (some "old-url"))
    (by
      have ht : (updateProject happyEnv "p1" "u1" pdSneaky).2 =
          [Effect.fetchProject "p1",
            Effect.storeUpdate "p1" (updatePayload pdSneaky (some "old-url"))] := rfl
      rw [ht]
      simp)).1 rfl
